import Mathlib

/-!
Verification of the audio chunking and transcription orchestration engine
of the speech-to-text repository, against its natural-language specification.

The definitions below are shallow embeddings of the Python source:
  - `splitLoop` / `split_audio` embed `AudioTranscriber._split_audio`
    (transcriber.py, lines 188-204); the `while` loop is modelled with an
    explicit fuel parameter because the Python loop does not terminate for
    every parameter choice (step `chunk_duration_ms - overlap_ms` may be 0).
  - `estimate_chunk_duration` embeds the chunk-duration estimate of
    `_transcribe_with_chunking` / `_transcribe_large_file_with_openai`
    (lines 152-160 and 248-258): Python's `int(x / y)` on non-negative
    integers is floor division, i.e. `Nat` division.
  - `combine_transcripts` embeds `AudioTranscriber._combine_transcripts`
    (lines 206-227); Python strings are modelled as `List Char`, and
    Python string truthiness as non-emptiness.  `py_strip` models
    `str.strip()` (whitespace removal at both ends; the ASCII whitespace
    characters space, tab, LF, CR, VT, FF).
  - `transcribe_route` embeds the size-based routing decision of
    `AudioTranscriber.transcribe` (lines 115-135); the float division
    `size / (1024*1024)` is modelled exactly over `ℚ`.
  - `load_model` embeds the success/fallback structure of
    `AudioTranscriber._load_model` (lines 69-106); the outcomes of the
    external calls (`whisper.load_model`, `_init_openai_client`) are
    parameters, and the number of fallback client initialisations is
    recorded to express "the fallback is attempted exactly once / never".
  - `chunk_transcript_list` / `transcribe_large_file_result` embed the
    per-chunk loop of `_transcribe_large_file_with_openai` (lines 262-291).
  - `Config` / `configStr` / `mask_key` embed `Config.__str__`
    (config.py, lines 39-42); the API key is modelled as `List Char` so
    that Python slicing `key[:7]`, `key[-3:]` is `List.take` / `List.drop`.
-/

namespace STT

/-- The space character, `' '` in the Python source. -/
def spaceChar : Char := Char.ofNat 32

/-- The asterisk character used for masking. -/
def starChar : Char := Char.ofNat 42

/-- One iteration structure of the `while start < len(audio)` loop of
`AudioTranscriber._split_audio`, with explicit fuel.  Each produced window is
the pair `(start, end)` with `end = min (start + chunk_duration_ms) total`;
the loop breaks after appending a window whose end reaches `total`, and
otherwise advances `start` by `chunk_duration_ms - overlap_ms`. -/
def splitLoop (fuel : Nat) (total chunk_duration_ms overlap_ms start : Nat) :
    List (Nat × Nat) :=
  match fuel with
  | 0 => []
  | Nat.succ f =>
      if start < total then
        let e := min (start + chunk_duration_ms) total
        if total ≤ e then
          [(start, e)]
        else
          (start, e) :: splitLoop f total chunk_duration_ms overlap_ms
            (start + (chunk_duration_ms - overlap_ms))
      else []

/-- `AudioTranscriber._split_audio`: the full run of the splitting loop from
`start = 0`.  Fuel `total + 1` is enough for every terminating run (the loop
iterates at most `total` times when the step is positive). -/
def split_audio (total chunk_duration_ms overlap_ms : Nat) : List (Nat × Nat) :=
  splitLoop (total + 1) total chunk_duration_ms overlap_ms 0

/-- Chunk-duration estimate of `_transcribe_with_chunking` (lines 157-160)
and `_transcribe_large_file_with_openai` (lines 255-258):
`int((len(audio) * chunk_size_bytes) / total_size_bytes)` followed by
`max(·, 30000)`. -/
def estimate_chunk_duration (total_duration_ms total_size_bytes chunk_size_bytes : Nat) :
    Nat :=
  max (total_duration_ms * chunk_size_bytes / total_size_bytes) 30000

/-- Python's whitespace predicate for `str.strip()`, restricted to the ASCII
whitespace characters: space, tab, LF, VT, FF, CR. -/
def py_is_space (c : Char) : Bool :=
  c = Char.ofNat 32 || c = Char.ofNat 9 || c = Char.ofNat 10 ||
  c = Char.ofNat 11 || c = Char.ofNat 12 || c = Char.ofNat 13

/-- Python `str.strip()`: remove whitespace from both ends. -/
def py_strip (s : List Char) : List Char :=
  ((s.dropWhile py_is_space).reverse.dropWhile py_is_space).reverse

/-- One iteration of the accumulation loop of
`AudioTranscriber._combine_transcripts` (lines 216-225):
`if combined and current: combined += " " + current
 elif current: combined = current`. -/
def combineStep (combined current : List Char) : List Char :=
  if !combined.isEmpty && !current.isEmpty then combined ++ spaceChar :: current
  else if !current.isEmpty then current
  else combined

/-- `AudioTranscriber._combine_transcripts` (lines 206-227): empty list gives
`""`; a singleton list is returned unchanged; otherwise the transcripts are
folded with `combineStep` starting from the first entry and the result is
stripped (`combined.strip()`). -/
def combine_transcripts : List (List Char) → List Char
  | [] => []
  | [t] => t
  | t0 :: rest => py_strip (rest.foldl combineStep t0)

/-- Join with a single space separator (no filtering). -/
def joinSpace : List (List Char) → List Char
  | [] => []
  | [t] => t
  | t :: rest => t ++ spaceChar :: joinSpace rest

/-- Modelled from the spec's words for the assembler policy ("concatenate
sequentially with a single space separator between non-empty segment texts;
empty-string segments are silently dropped from the join"): join the
non-empty entries, in order, with exactly one space between consecutive
entries.  Used to compare the claimed behaviour with the source's
`combine_transcripts`. -/
def join_nonempty (ts : List (List Char)) : List Char :=
  joinSpace (ts.filter (fun t => !t.isEmpty))

/-- Routing decision taken by `AudioTranscriber.transcribe`
(lines 115-135). -/
inductive Route
  | singlePassOpenai
  | chunkedOpenai
  | singlePassLocal
  | chunkedLocal
  deriving DecidableEq, Repr

/-- `file_size_mb = audio_path.stat().st_size / (1024 * 1024)` (line 115),
modelled exactly over `ℚ`. -/
def file_size_mb (size_bytes : Nat) : ℚ :=
  (size_bytes : ℚ) / (1024 * 1024)

/-- `openai_limit_mb = 25` (line 119). -/
def openai_limit_mb : ℚ := 25

/-- The size-based routing of `AudioTranscriber.transcribe` (lines 121-135):
with the OpenAI backend the limit is the fixed 25 MB cap, with the local
backend it is the configured `chunk_size_mb`; at or below the limit the file
is transcribed in a single pass, above it the chunked path is taken. -/
def transcribe_route (use_openai : Bool) (size_bytes chunk_size_mb : Nat) : Route :=
  if use_openai then
    if file_size_mb size_bytes ≤ openai_limit_mb then Route.singlePassOpenai
    else Route.chunkedOpenai
  else
    if file_size_mb size_bytes ≤ (chunk_size_mb : ℚ) then Route.singlePassLocal
    else Route.chunkedLocal

/-- Whether a route is a single-pass route (no splitting). -/
def is_single_pass : Route → Bool
  | Route.singlePassOpenai => true
  | Route.singlePassLocal => true
  | Route.chunkedOpenai => false
  | Route.chunkedLocal => false

/-- Result of `AudioTranscriber._load_model`: whether it returned `True`,
the resulting `self.use_openai` flag, and how many times the fallback path
called `_init_openai_client`. -/
structure LoadOutcome where
  success : Bool
  use_openai : Bool
  fallback_attempts : Nat
  deriving DecidableEq, Repr

/-- `AudioTranscriber._load_model` (lines 69-106).  Parameters:
`use_openai` and `model_cached` are the instance state on entry
(`self.use_openai`, `self.model is not None`); `local_load_ok` is whether
`whisper.load_model` succeeds; `openai_fallback` and `openai_api_key` come
from the config (the key is "configured" when non-empty); `init_client_ok`
is whether `_init_openai_client` succeeds. -/
def load_model (use_openai model_cached local_load_ok : Bool)
    (openai_fallback : Bool) (openai_api_key : String) (init_client_ok : Bool) :
    LoadOutcome :=
  if use_openai then ⟨true, use_openai, 0⟩
  else if model_cached then ⟨true, use_openai, 0⟩
  else if local_load_ok then ⟨true, use_openai, 0⟩
  else if openai_fallback = true ∧ openai_api_key ≠ "" then
    if init_client_ok then ⟨true, true, 1⟩
    else ⟨false, use_openai, 1⟩
  else ⟨false, use_openai, 0⟩

/-- `AudioTranscriber.get_engine_name` (lines 343-348). -/
def get_engine_name (use_openai : Bool) : String :=
  if use_openai then "openai_api" else "local_whisper"

/-- The per-chunk loop of `_transcribe_large_file_with_openai`
(lines 268-285): a chunk is modelled by its re-encoded file size in MB
(`ℚ`, the Python float `chunk_file.stat().st_size / (1024 * 1024)`) and the
text the remote API would return for it.  A chunk above 25 MB is skipped and
contributes the empty string; every other chunk contributes its text. -/
def chunk_transcript_list (chunks : List (ℚ × List Char)) : List (List Char) :=
  chunks.map (fun ch => if 25 < ch.1 then [] else ch.2)

/-- `_transcribe_large_file_with_openai` (lines 262-291) after splitting:
collect the per-chunk transcripts and combine them. -/
def transcribe_large_file_result (chunks : List (ℚ × List Char)) : List Char :=
  combine_transcripts (chunk_transcript_list chunks)

/-- The `Config` dataclass (config.py, lines 17-37).  The API key is kept as
`List Char` so that the slicing in `__str__` is `List.take` / `List.drop`;
the other fields are rendered verbatim. -/
structure Config where
  rss_url : String
  local_dir : String
  x_spaces_url : String
  download_dir : String
  output_dir : String
  date_range : String
  output_format : String
  whisper_model : String
  max_episodes : Nat
  chunk_size_mb : Nat
  overlap_seconds : Nat
  delete_audio : Bool
  delete_original : Bool
  openai_api_key : List Char
  use_openai_api : Bool
  openai_fallback : Bool
  author : String
  contact : String
  deriving Repr

/-- The key masking of `Config.__str__` (config.py, line 41):
`key[:7] + '*' * (len(key) - 10) + key[-3:]` when `len(key) > 10`,
otherwise `'***'`.  For a key longer than 10 characters, `key[-3:]` is
`drop (length - 3)`. -/
def mask_key (key : List Char) : List Char :=
  if 10 < key.length then
    key.take 7 ++ List.replicate (key.length - 10) starChar ++ key.drop (key.length - 3)
  else [starChar, starChar, starChar]

/-- Python `repr` of a `bool` as interpolated by an f-string. -/
def pyBoolStr (b : Bool) : String :=
  if b then "True" else "False"

/-- `Config.__str__` (config.py, lines 39-42): the f-string rendering with
the masked API key. -/
def configStr (c : Config) : String :=
  "Config(rss_url='" ++ c.rss_url ++
  "', local_dir='" ++ c.local_dir ++
  "', x_spaces_url='" ++ c.x_spaces_url ++
  "', download_dir='" ++ c.download_dir ++
  "', output_dir='" ++ c.output_dir ++
  "', date_range='" ++ c.date_range ++
  "', output_format='" ++ c.output_format ++
  "', whisper_model='" ++ c.whisper_model ++
  "', max_episodes=" ++ toString c.max_episodes ++
  ", chunk_size_mb=" ++ toString c.chunk_size_mb ++
  ", overlap_seconds=" ++ toString c.overlap_seconds ++
  ", delete_audio=" ++ pyBoolStr c.delete_audio ++
  ", delete_original=" ++ pyBoolStr c.delete_original ++
  ", openai_api_key='" ++ String.mk (mask_key c.openai_api_key) ++
  "', use_openai_api=" ++ pyBoolStr c.use_openai_api ++
  ", openai_fallback=" ++ pyBoolStr c.openai_fallback ++
  ", author='" ++ c.author ++
  "', contact='" ++ c.contact ++ "')"

/-- A concrete config used by the masking witness; its API key is 13
characters long. -/
def cfgA : Config :=
  ⟨"r", "l", "x", "dl", "out", "today", "txt", "base", 5, 25, 15,
   false, false, ("sk-abcdXYZhij").toList, false, true, "au", "co"⟩

/-- Identical to `cfgA` except for the middle characters of the API key. -/
def cfgB : Config :=
  ⟨"r", "l", "x", "dl", "out", "today", "txt", "base", 5, 25, 15,
   false, false, ("sk-abcdQQQhij").toList, false, true, "au", "co"⟩

/-! ### Lemmas about the splitting loop -/

lemma splitLoop_zero (total dur ov start : Nat) :
    splitLoop 0 total dur ov start = [] := rfl

lemma splitLoop_succ (f total dur ov start : Nat) :
    splitLoop (f + 1) total dur ov start =
      if start < total then
        if total ≤ min (start + dur) total then
          [(start, min (start + dur) total)]
        else
          (start, min (start + dur) total) ::
            splitLoop f total dur ov (start + (dur - ov))
      else [] := rfl

lemma splitLoop_cons_shape {fuel total dur ov start : Nat} {w : Nat × Nat}
    {ws : List (Nat × Nat)}
    (h : splitLoop fuel total dur ov start = w :: ws) :
    w = (start, min (start + dur) total) ∧ start < total := by
  cases fuel with
  | zero => simp [splitLoop_zero] at h
  | succ f =>
      rw [splitLoop_succ] at h
      by_cases hs : start < total
      · rw [if_pos hs] at h
        refine ⟨?_, hs⟩
        by_cases he : total ≤ min (start + dur) total
        · rw [if_pos he] at h
          exact (List.cons.injEq _ _ _ _ ▸ h).1.symm
        · rw [if_neg he] at h
          exact (List.cons.injEq _ _ _ _ ▸ h).1.symm
      · rw [if_neg hs] at h
        exact absurd h (by simp)

lemma splitLoop_succ_of_lt {total start : Nat} (f dur ov : Nat) (h : start < total) :
    ∃ rest, splitLoop (f + 1) total dur ov start =
      (start, min (start + dur) total) :: rest := by
  rw [splitLoop_succ, if_pos h]
  by_cases he : total ≤ min (start + dur) total
  · exact ⟨[], by rw [if_pos he]⟩
  · exact ⟨_, by rw [if_neg he]⟩

lemma splitLoop_chain (total dur ov : Nat) :
    ∀ fuel start, List.Chain'
      (fun a b => b.1 = a.1 + (dur - ov) ∧ a.2 = a.1 + dur)
      (splitLoop fuel total dur ov start) := by
  intro fuel
  induction fuel with
  | zero => intro start; simp [splitLoop_zero]
  | succ f ih =>
      intro start
      rw [splitLoop_succ]
      by_cases hs : start < total
      · rw [if_pos hs]
        by_cases he : total ≤ min (start + dur) total
        · rw [if_pos he]; simp
        · rw [if_neg he]
          rcases hrec : splitLoop f total dur ov (start + (dur - ov)) with _ | ⟨y, ys⟩
          · simp
          · rw [List.chain'_cons]
            refine ⟨?_, hrec ▸ ih _⟩
            obtain ⟨hy, -⟩ := splitLoop_cons_shape hrec
            subst hy
            constructor
            · rfl
            · omega
      · rw [if_neg hs]; simp

lemma splitLoop_getLast (total dur ov : Nat) (hov : ov < dur) :
    ∀ fuel start, start < total → total ≤ start + fuel →
      ∃ s, (splitLoop fuel total dur ov start).getLast? = some (s, total) := by
  intro fuel
  induction fuel with
  | zero => intro start h1 h2; omega
  | succ f ih =>
      intro start h1 h2
      rw [splitLoop_succ, if_pos h1]
      by_cases he : total ≤ min (start + dur) total
      · rw [if_pos he]
        refine ⟨start, ?_⟩
        have : min (start + dur) total = total := by omega
        rw [this]
        rfl
      · rw [if_neg he]
        have hlt : start + (dur - ov) < total := by omega
        have hfu : total ≤ start + (dur - ov) + f := by omega
        obtain ⟨s, hs⟩ := ih (start + (dur - ov)) hlt hfu
        refine ⟨s, ?_⟩
        rcases hrec : splitLoop f total dur ov (start + (dur - ov)) with _ | ⟨y, ys⟩
        · rw [hrec] at hs; simp at hs
        · rw [hrec] at hs
          rw [List.getLast?_cons_cons]
          exact hs

lemma splitLoop_mem_bounds (total dur ov : Nat) (hdur : 0 < dur) :
    ∀ fuel start, ∀ w ∈ splitLoop fuel total dur ov start,
      w.1 < w.2 ∧ w.2 ≤ total := by
  intro fuel
  induction fuel with
  | zero => intro start w hw; simp [splitLoop_zero] at hw
  | succ f ih =>
      intro start w hw
      rw [splitLoop_succ] at hw
      by_cases hs : start < total
      · rw [if_pos hs] at hw
        by_cases he : total ≤ min (start + dur) total
        · rw [if_pos he] at hw
          simp at hw
          subst hw
          simp only
          omega
        · rw [if_neg he] at hw
          rcases List.mem_cons.mp hw with h | h
          · subst h; simp only; omega
          · exact ih _ w h
      · rw [if_neg hs] at hw; simp at hw

lemma splitLoop_length_le (total dur ov : Nat) :
    ∀ fuel start, (splitLoop fuel total dur ov start).length ≤ fuel := by
  intro fuel
  induction fuel with
  | zero => intro start; simp [splitLoop_zero]
  | succ f ih =>
      intro start
      rw [splitLoop_succ]
      by_cases hs : start < total
      · rw [if_pos hs]
        by_cases he : total ≤ min (start + dur) total
        · rw [if_pos he]; simp
        · rw [if_neg he]
          simpa using Nat.succ_le_succ (ih _)
      · rw [if_neg hs]; simp

lemma splitLoop_fuel_irrel (total dur ov : Nat) (hov : ov < dur) :
    ∀ f₁ f₂ start, total ≤ start + f₁ → total ≤ start + f₂ →
      splitLoop f₁ total dur ov start = splitLoop f₂ total dur ov start := by
  intro f₁
  induction f₁ with
  | zero =>
      intro f₂ start h1 h2
      rw [splitLoop_zero]
      cases f₂ with
      | zero => rw [splitLoop_zero]
      | succ g => rw [splitLoop_succ, if_neg (by omega)]
  | succ g ih =>
      intro f₂ start h1 h2
      cases f₂ with
      | zero =>
          rw [splitLoop_zero, splitLoop_succ, if_neg (by omega)]
      | succ g₂ =>
          rw [splitLoop_succ, splitLoop_succ]
          by_cases hs : start < total
          · rw [if_pos hs, if_pos hs]
            by_cases he : total ≤ min (start + dur) total
            · rw [if_pos he, if_pos he]
            · rw [if_neg he, if_neg he]
              have := ih g₂ (start + (dur - ov)) (by omega) (by omega)
              rw [this]
          · rw [if_neg hs, if_neg hs]

/-! ### Claim theorems for the Segmenter -/

/-- C1: Segmenter coverage.  For every `total_duration_ms > 0` and every
`0 ≤ overlap_ms < segment_duration_ms`, the window list of `_split_audio`
covers exactly `[0, total_duration_ms)` with no gaps: it is non-empty, the
first window starts at `0`, every later window starts at or before the
previous window's end, the final window ends exactly at
`total_duration_ms`, and every window is a non-degenerate sub-interval of
the timeline. -/
theorem split_audio_coverage (total dur ov : Nat) (htot : 0 < total) (hov : ov < dur) :
    split_audio total dur ov ≠ [] ∧
    (∃ rest, split_audio total dur ov = (0, min dur total) :: rest) ∧
    (∀ i (h : i + 1 < (split_audio total dur ov).length),
        ((split_audio total dur ov).get ⟨i + 1, h⟩).1 ≤
          ((split_audio total dur ov).get ⟨i, Nat.lt_of_succ_lt h⟩).2) ∧
    (∃ s, (split_audio total dur ov).getLast? = some (s, total)) ∧
    (∀ w ∈ split_audio total dur ov, w.1 < w.2 ∧ w.2 ≤ total) := by
  obtain ⟨rest, hr⟩ := splitLoop_succ_of_lt total dur ov (show (0:Nat) < total from htot)
  rw [Nat.zero_add] at hr
  have hch := splitLoop_chain total dur ov (total + 1) 0
  rw [List.chain'_iff_get] at hch
  refine ⟨?_, ⟨rest, hr⟩, ?_, ?_, ?_⟩
  · rw [split_audio, hr]; simp
  · intro i h
    have hc := hch i (by unfold split_audio at h; omega)
    have h1 := hc.1
    have h2 := hc.2
    unfold split_audio
    omega
  · exact splitLoop_getLast total dur ov hov (total + 1) 0 htot (by omega)
  · exact splitLoop_mem_bounds total dur ov (by omega) (total + 1) 0

/-- Witness for C1 at `total = 5`, `segment = 2`, `overlap = 1`. -/
theorem split_audio_coverage_witness :
    0 < 5 ∧ 1 < 2 ∧ split_audio 5 2 1 ≠ [] :=
  ⟨by decide, by decide, (split_audio_coverage 5 2 1 (by decide) (by decide)).1⟩

/-- C2: Overlap invariant.  For every `total_duration_ms > 0` and every
`0 ≤ overlap_ms < segment_duration_ms`, consecutive windows `w[i], w[i+1]`
of `_split_audio` satisfy
`w[i+1].start = w[i].start + (segment_duration_ms - overlap_ms)`, every
non-final window ends at `w[i].start + segment_duration_ms`, and the
overlapped span is `w[i].end - w[i+1].start = overlap_ms`. -/
theorem split_audio_overlap_invariant (total dur ov : Nat) (htot : 0 < total)
    (hov : ov < dur) (i : Nat) (h : i + 1 < (split_audio total dur ov).length) :
    ((split_audio total dur ov).get ⟨i + 1, h⟩).1 =
      ((split_audio total dur ov).get ⟨i, Nat.lt_of_succ_lt h⟩).1 + (dur - ov) ∧
    ((split_audio total dur ov).get ⟨i, Nat.lt_of_succ_lt h⟩).2 =
      ((split_audio total dur ov).get ⟨i, Nat.lt_of_succ_lt h⟩).1 + dur ∧
    ((split_audio total dur ov).get ⟨i, Nat.lt_of_succ_lt h⟩).2 -
      ((split_audio total dur ov).get ⟨i + 1, h⟩).1 = ov := by
  have hch := splitLoop_chain total dur ov (total + 1) 0
  rw [List.chain'_iff_get] at hch
  have hc := hch i (by unfold split_audio at h; omega)
  have h1 := hc.1
  have h2 := hc.2
  unfold split_audio
  unfold split_audio at h
  refine ⟨?_, ?_, ?_⟩ <;> omega

/-- Witness for C2 at `total = 5`, `segment = 2`, `overlap = 1`, `i = 0`. -/
theorem split_audio_overlap_invariant_witness :
    ((split_audio 5 2 1).get ⟨1, by decide⟩).1 =
      ((split_audio 5 2 1).get ⟨0, by decide⟩).1 + (2 - 1) :=
  (split_audio_overlap_invariant 5 2 1 (by decide) (by decide) 0 (by decide)).1

/-- C8: Single-window shortcut.  If `0 < total_duration_ms ≤
segment_duration_ms`, `_split_audio` produces exactly the one window
`[0, total_duration_ms)`, whatever the overlap parameter. -/
theorem split_audio_single_window (total dur ov : Nat) (h1 : 0 < total)
    (h2 : total ≤ dur) :
    split_audio total dur ov = [(0, total)] := by
  have hmin : min (0 + dur) total = total := by omega
  rw [split_audio, splitLoop_succ, if_pos h1,
    if_pos (show total ≤ min (0 + dur) total by omega), hmin]

/-- Witness for C8 at `total = 3`, `segment = 10`, `overlap = 2`. -/
theorem split_audio_single_window_witness :
    0 < 3 ∧ 3 ≤ 10 ∧ split_audio 3 10 2 = [(0, 3)] :=
  ⟨by decide, by decide, split_audio_single_window 3 10 2 (by decide) (by decide)⟩

/-- C9: Segmenter termination under the precondition `overlap_ms <
segment_duration_ms` (positive step): the fuel-indexed approximations of the
splitting loop stabilise at fuel `total + 1` — giving the loop any more fuel
does not change its output, i.e. the loop has terminated — and the window
list is finite with at most `total + 1` entries.  The final conjunct shows
the precondition is required: at `total = 2`, `segment = 1`, `overlap = 1`
(step `0`, which nothing in the program validates) the approximations never
stabilise. -/
theorem split_audio_termination (total dur ov : Nat) (hov : ov < dur) :
    (∀ fuel, total + 1 ≤ fuel →
        splitLoop fuel total dur ov 0 = split_audio total dur ov) ∧
    (split_audio total dur ov).length ≤ total + 1 ∧
    splitLoop 2 2 1 1 0 ≠ splitLoop 3 2 1 1 0 := by
  refine ⟨fun fuel hf => ?_, splitLoop_length_le total dur ov (total + 1) 0, by decide⟩
  exact splitLoop_fuel_irrel total dur ov hov fuel (total + 1) 0 (by omega) (by omega)

/-- Witness for C9 at `total = 5`, `segment = 2`, `overlap = 1`, fuel `9`. -/
theorem split_audio_termination_witness :
    splitLoop 9 5 2 1 0 = split_audio 5 2 1 :=
  (split_audio_termination 5 2 1 (by decide)).1 9 (by decide)

/-! ### Lemmas about the transcript assembler -/

lemma joinSpace_append_cons (a b : List Char) (m : List (List Char)) :
    joinSpace ((a ++ spaceChar :: b) :: m) = a ++ spaceChar :: joinSpace (b :: m) := by
  cases m with
  | nil => rfl
  | cons x xs =>
      show (a ++ spaceChar :: b) ++ spaceChar :: joinSpace (x :: xs) =
        a ++ spaceChar :: (b ++ spaceChar :: joinSpace (x :: xs))
      simp

lemma foldl_combineStep_eq (l : List (List Char)) :
    ∀ c, l.foldl combineStep c = join_nonempty (c :: l) := by
  induction l with
  | nil =>
      intro c
      show c = join_nonempty [c]
      unfold join_nonempty
      by_cases hc : c.isEmpty
      · have hce : c = [] := by cases c with
          | nil => rfl
          | cons x xs => simp [List.isEmpty] at hc
        subst hce
        rfl
      · simp only [List.filter, hc]
        rfl
  | cons t l ih =>
      intro c
      show l.foldl combineStep (combineStep c t) = join_nonempty (c :: t :: l)
      rw [ih (combineStep c t)]
      unfold join_nonempty
      by_cases hc : c.isEmpty <;> by_cases ht : t.isEmpty
      · have hce : c = [] := by cases c with
          | nil => rfl
          | cons x xs => simp [List.isEmpty] at hc
        have hte : t = [] := by cases t with
          | nil => rfl
          | cons x xs => simp [List.isEmpty] at ht
        subst hce; subst hte
        rfl
      · have hce : c = [] := by cases c with
          | nil => rfl
          | cons x xs => simp [List.isEmpty] at hc
        subst hce
        have hstep : combineStep [] t = t := by
          unfold combineStep
          simp [ht]
        rw [hstep]
        simp [List.filter_cons, ht]
      · have hte : t = [] := by cases t with
          | nil => rfl
          | cons x xs => simp [List.isEmpty] at ht
        subst hte
        have hstep : combineStep c [] = c := by
          unfold combineStep
          simp
        rw [hstep]
        simp [List.filter_cons, hc]
      · have hstep : combineStep c t = c ++ spaceChar :: t := by
          unfold combineStep
          simp [hc, ht]
        rw [hstep]
        have hne : ((c ++ spaceChar :: t).isEmpty) = false := by
          cases c <;> simp [List.isEmpty]
        simp only [List.filter_cons, hne, hc, ht, Bool.not_false, Bool.not_true,
          if_true, if_false]
        exact joinSpace_append_cons c t (l.filter (fun t => !t.isEmpty))

/-! ### Claim theorems for the assembler -/

/-- C7 counterexample: on the input `[" a", "b"]` the code does NOT return
the plain space-join of the non-empty entries — `_combine_transcripts`
additionally strips the joined result, giving `"a b"` where the claimed
join is `" a b"`. -/
theorem combine_transcripts_counterexample :
    combine_transcripts [(" a").toList, ("b").toList] = ("a b").toList ∧
    join_nonempty [(" a").toList, ("b").toList] = (" a b").toList ∧
    combine_transcripts [(" a").toList, ("b").toList] ≠
      join_nonempty [(" a").toList, ("b").toList] := by decide

/-- C7 (amended): for a list of two or more transcripts,
`_combine_transcripts` returns the space-join of the non-empty entries
(empty entries dropped, one space between consecutive non-empty
contributions) with leading and trailing whitespace stripped from the final
result; a single-element list is returned unchanged (no strip), and
`combine(["a", "", "b"]) = "a b"` as claimed. -/
theorem combine_transcripts_amended :
    (∀ ts : List (List Char), 2 ≤ ts.length →
        combine_transcripts ts = py_strip (join_nonempty ts)) ∧
    (∀ t : List Char, combine_transcripts [t] = t) ∧
    combine_transcripts [("a").toList, ("").toList, ("b").toList] = ("a b").toList := by
  refine ⟨?_, fun t => rfl, by decide⟩
  intro ts h2
  match ts with
  | t0 :: t1 :: rest =>
      show py_strip ((t1 :: rest).foldl combineStep t0) = _
      rw [foldl_combineStep_eq]

/-- Witness for the amended C7 at the two-element input `["x", "y"]`. -/
theorem combine_transcripts_amended_witness :
    2 ≤ ([("x").toList, ("y").toList] : List (List Char)).length ∧
    combine_transcripts [("x").toList, ("y").toList] =
      py_strip (join_nonempty [("x").toList, ("y").toList]) :=
  ⟨by decide, combine_transcripts_amended.1 _ (by decide)⟩

/-! ### Claim theorems for routing, fallback, skipping and estimation -/

/-- C3: Size-based routing.  `transcribe` chooses single-pass processing
iff the file's size in MB is at most the applicable limit — the fixed 25 MB
cap with the remote OpenAI backend, the configured `chunk_size_mb` with the
local backend; in particular a 30 MB file with the remote backend in use is
always routed to the chunked path. -/
theorem transcribe_size_routing :
    (∀ (u : Bool) (b c : Nat),
        is_single_pass (transcribe_route u b c) = true ↔
          file_size_mb b ≤ (if u then openai_limit_mb else (c : ℚ))) ∧
    (∀ c : Nat, transcribe_route true (30 * 1024 * 1024) c = Route.chunkedOpenai) := by
  constructor
  · intro u b c
    cases u with
    | true =>
        by_cases hle : file_size_mb b ≤ openai_limit_mb <;>
          simp [transcribe_route, is_single_pass, hle]
    | false =>
        by_cases hle : file_size_mb b ≤ (c : ℚ) <;>
          simp [transcribe_route, is_single_pass, hle]
  · intro c
    have h : ¬ file_size_mb (30 * 1024 * 1024) ≤ openai_limit_mb := by
      unfold file_size_mb openai_limit_mb
      norm_num
    simp [transcribe_route, h]

/-- Witness for C3: a 30 MB file with the remote backend is chunked, a
10 MB file is single-pass. -/
theorem transcribe_size_routing_witness :
    transcribe_route true (30 * 1024 * 1024) 25 = Route.chunkedOpenai ∧
    is_single_pass (transcribe_route true (10 * 1024 * 1024) 25) = true :=
  ⟨transcribe_size_routing.2 25,
   (transcribe_size_routing.1 true (10 * 1024 * 1024) 25).mpr (by norm_num [file_size_mb, openai_limit_mb])⟩

/-- C4: Fallback policy of `_load_model` when the preferred local backend
fails (local model not yet loaded and `whisper.load_model` raises): the
fallback client initialisation is attempted exactly once iff
`openai_fallback` is enabled and an API key is configured; if it is
attempted and succeeds, loading succeeds and the engine name becomes
`"openai_api"`; if fallback is disabled or no key is configured, loading
fails and the fallback is never invoked. -/
theorem load_model_fallback_policy (fb : Bool) (key : String) (init_ok : Bool) :
    ((load_model false false false fb key init_ok).fallback_attempts = 1 ↔
        fb = true ∧ key ≠ "") ∧
    (fb = true → key ≠ "" → init_ok = true →
        (load_model false false false fb key init_ok).success = true ∧
        get_engine_name (load_model false false false fb key init_ok).use_openai =
          "openai_api") ∧
    (¬(fb = true ∧ key ≠ "") →
        (load_model false false false fb key init_ok).success = false ∧
        (load_model false false false fb key init_ok).fallback_attempts = 0) := by
  by_cases hc : fb = true ∧ key ≠ ""
  · cases init_ok with
    | true => simp [load_model, get_engine_name, hc]
    | false => simp [load_model, hc]
  · refine ⟨by simp [load_model, hc], ?_, fun _ => by simp [load_model, hc]⟩
    intro hfb hkey
    exact absurd ⟨hfb, hkey⟩ hc

/-- Witness for C4: with fallback enabled, a key present and a succeeding
client initialisation, loading succeeds with engine `"openai_api"`; with
fallback disabled it fails without invoking the fallback. -/
theorem load_model_fallback_policy_witness :
    (load_model false false false true "sk-1" true).success = true ∧
    get_engine_name (load_model false false false true "sk-1" true).use_openai =
      "openai_api" ∧
    (load_model false false false false "sk-1" true).success = false ∧
    (load_model false false false false "sk-1" true).fallback_attempts = 0 := by
  refine ⟨?_, ?_, ?_, ?_⟩
  · exact ((load_model_fallback_policy true "sk-1" true).2.1 rfl (by decide) rfl).1
  · exact ((load_model_fallback_policy true "sk-1" true).2.1 rfl (by decide) rfl).2
  · exact ((load_model_fallback_policy false "sk-1" true).2.2 (by simp)).1
  · exact ((load_model_fallback_policy false "sk-1" true).2.2 (by simp)).2

/-- C5: PayloadTooLarge recovery in the chunked remote-API path.  Every
chunk whose re-encoded size exceeds 25 MB contributes exactly the empty
string; every other chunk contributes its transcript; the transcript list
keeps one entry per chunk (no abort — processing continues over all
chunks), and the whole-file result is the assembled combination of that
list. -/
theorem openai_oversize_chunk_skip (chunks : List (ℚ × List Char)) (i : Nat)
    (ch : ℚ × List Char) (hch : chunks[i]? = some ch) (hbig : 25 < ch.1) :
    (chunk_transcript_list chunks)[i]? = some [] ∧
    (chunk_transcript_list chunks).length = chunks.length ∧
    (∀ (j : Nat) (ch2 : ℚ × List Char), chunks[j]? = some ch2 → ¬ 25 < ch2.1 →
        (chunk_transcript_list chunks)[j]? = some ch2.2) ∧
    transcribe_large_file_result chunks =
      combine_transcripts (chunk_transcript_list chunks) := by
  refine ⟨?_, by simp [chunk_transcript_list], ?_, rfl⟩
  · unfold chunk_transcript_list
    rw [List.getElem?_map, hch]
    simp [hbig]
  · intro j ch2 hj hn
    unfold chunk_transcript_list
    rw [List.getElem?_map, hj]
    simp [hn]

/-- Witness for C5: a 30 MB chunk is skipped (empty contribution) while a
10 MB chunk keeps its transcript. -/
theorem openai_oversize_chunk_skip_witness :
    (chunk_transcript_list [((30 : ℚ), ("x").toList), ((10 : ℚ), ("y").toList)])[0]? =
      some [] ∧
    (chunk_transcript_list [((30 : ℚ), ("x").toList), ((10 : ℚ), ("y").toList)])[1]? =
      some (("y").toList) := by
  refine ⟨?_, ?_⟩
  · exact (openai_oversize_chunk_skip
      [((30 : ℚ), ("x").toList), ((10 : ℚ), ("y").toList)] 0 ((30 : ℚ), ("x").toList)
      rfl (by norm_num)).1
  · exact (openai_oversize_chunk_skip
      [((30 : ℚ), ("x").toList), ((10 : ℚ), ("y").toList)] 0 ((30 : ℚ), ("x").toList)
      rfl (by norm_num)).2.2.1 1 ((10 : ℚ), ("y").toList) rfl (by norm_num)

/-- C6: Size estimation.  For `total_size_bytes > 0` the estimated segment
duration is `total_duration_ms * size_budget_bytes / total_size_bytes`
truncated to an integer, clamped from below to the 30,000 ms minimum, and
the result is always at least 30,000 ms. -/
theorem estimate_chunk_duration_spec (d s b : Nat) (hs : 0 < s) :
    30000 ≤ estimate_chunk_duration d s b ∧
    (30000 ≤ d * b / s → estimate_chunk_duration d s b = d * b / s) ∧
    (d * b / s < 30000 → estimate_chunk_duration d s b = 30000) := by
  unfold estimate_chunk_duration
  omega

/-- Witness for C6: a one-hour 100 MB file with a 25 MB budget gets 15
minute chunks; a tiny file is clamped to 30 s. -/
theorem estimate_chunk_duration_spec_witness :
    estimate_chunk_duration 3600000 (100 * 1048576) (25 * 1048576) = 900000 ∧
    estimate_chunk_duration 10000 1000 1000 = 30000 := by
  refine ⟨?_, ?_⟩
  · have h := (estimate_chunk_duration_spec 3600000 (100 * 1048576) (25 * 1048576)
      (by norm_num)).2.1 (by norm_num)
    rw [h]
  · exact (estimate_chunk_duration_spec 10000 1000 1000 (by norm_num)).2.2 (by norm_num)

/-! ### Claim theorem for the Config rendering -/

lemma mask_key_congr {k1 k2 : List Char} (hlen : k1.length = k2.length)
    (h7 : k1.take 7 = k2.take 7)
    (h3 : k1.drop (k1.length - 3) = k2.drop (k2.length - 3)) :
    mask_key k1 = mask_key k2 := by
  rw [hlen] at h3
  unfold mask_key
  rw [hlen, h7, h3]

/-- C10: API-key masking.  A key longer than 10 characters is rendered as
its first 7 characters, then `(length - 10)` asterisks, then its last 3
characters; a key of 10 or fewer characters is rendered entirely as `***`;
and the rendering of a `Config` is insensitive to the hidden middle of the
key — two configs agreeing on every other field and on the key's length,
first 7 and last 3 characters render identically. -/
theorem config_str_masking :
    (∀ key : List Char, 10 < key.length →
        mask_key key = key.take 7 ++ List.replicate (key.length - 10) starChar ++
          key.drop (key.length - 3)) ∧
    (∀ key : List Char, key.length ≤ 10 →
        mask_key key = [starChar, starChar, starChar]) ∧
    (∀ c1 c2 : Config,
        c1.rss_url = c2.rss_url → c1.local_dir = c2.local_dir →
        c1.x_spaces_url = c2.x_spaces_url → c1.download_dir = c2.download_dir →
        c1.output_dir = c2.output_dir → c1.date_range = c2.date_range →
        c1.output_format = c2.output_format → c1.whisper_model = c2.whisper_model →
        c1.max_episodes = c2.max_episodes → c1.chunk_size_mb = c2.chunk_size_mb →
        c1.overlap_seconds = c2.overlap_seconds → c1.delete_audio = c2.delete_audio →
        c1.delete_original = c2.delete_original →
        c1.use_openai_api = c2.use_openai_api →
        c1.openai_fallback = c2.openai_fallback →
        c1.author = c2.author → c1.contact = c2.contact →
        c1.openai_api_key.length = c2.openai_api_key.length →
        c1.openai_api_key.take 7 = c2.openai_api_key.take 7 →
        c1.openai_api_key.drop (c1.openai_api_key.length - 3) =
          c2.openai_api_key.drop (c2.openai_api_key.length - 3) →
        configStr c1 = configStr c2) := by
  refine ⟨fun key h => by unfold mask_key; rw [if_pos h],
          fun key h => by unfold mask_key; rw [if_neg (by omega)], ?_⟩
  intro c1 c2 h1 h2 h3 h4 h5 h6 h7 h8 h9 h10 h11 h12 h13 h14 h15 h16 h17 hlen hk7 hk3
  have hmask := mask_key_congr hlen hk7 hk3
  unfold configStr
  rw [h1, h2, h3, h4, h5, h6, h7, h8, h9, h10, h11, h12, h13, h14, h15, h16, h17,
    hmask]

/-- Witness for C10: two configs whose 13-character keys differ only in the
hidden middle render identically, and a short key masks to `***`. -/
theorem config_str_masking_witness :
    configStr cfgA = configStr cfgB ∧
    mask_key (("short").toList) = [starChar, starChar, starChar] :=
  ⟨config_str_masking.2.2 cfgA cfgB rfl rfl rfl rfl rfl rfl rfl rfl rfl rfl rfl rfl
      rfl rfl rfl rfl rfl (by decide) (by decide) (by decide),
   config_str_masking.2.1 _ (by decide)⟩

end STT
